import Mathlib

/-!
# Frame display pipeline of `GLWidget` (src/glwidget.cpp)

A shallow embedding of the widget that receives frames from the MLT consumer
thread, hands them to the GUI thread through the `frameReceived` signal,
uploads them into an OpenGL texture and paints them inside an aspect-fitted
rectangle.

Conventions of the embedding.

* C `int` values are `Int`.  The integer additions and subtractions of
  `resizeGL` and `paintGL`, which can leave the 32-bit range, wrap around
  (`wrap32`), as they do on the usual targets.
* The members are declared in `glwidget.h`, which is outside the file: `x`,
  `y`, `w`, `h`, `m_image_width` and `m_image_height` are taken to be `int`,
  `m_texture` a `GLuint`, `m_display_ratio` a `double`, `isShowingFrame` a
  `bool`, as their uses in the file indicate.
* A finite `double` is the rational number it denotes.  Every double operation
  is the exact rational operation followed by `binary64`, rounding to the
  nearest value with a 53-bit significand, ties to even.  The exponent range is
  not bounded (no overflow to infinity, no subnormal numbers).
* A double that is not finite (the quotient of a division by zero) is `none`.
* `(int) d` truncates toward zero.  When the truncated value does not fit in
  `int`, or `d` is not finite, ISO C leaves the conversion undefined; the model
  lets the target machine choose the resulting value (`Target.outOfRange`).
* OpenGL is an external library: it is modelled as the list of calls issued
  plus the table of texture objects that exist.
-/

namespace GLWidget

/-! ## Double arithmetic -/

/-- Round a rational to the nearest integer, ties going to the even one. -/
def rne (x : ℚ) : Int :=
  if x - ⌊x⌋ < 1 / 2 then ⌊x⌋
  else if 1 / 2 < x - ⌊x⌋ then ⌊x⌋ + 1
  else if ⌊x⌋ % 2 = 0 then ⌊x⌋ else ⌊x⌋ + 1

/-- Round a rational to the nearest binary floating-point number with a 53-bit
significand (IEEE 754 binary64, round-to-nearest-even, unbounded exponent). -/
def binary64 (q : ℚ) : ℚ :=
  if q = 0 then 0
  else rne (q / (2 : ℚ) ^ (Int.log 2 |q| - 52)) * (2 : ℚ) ^ (Int.log 2 |q| - 52)

/-- A `double` value: `some q` is the finite double denoting `q`, `none` is a
non-finite one (an infinity or a NaN). -/
abbrev Dbl := Option ℚ

/-- Double division `a / b` of two finite doubles. -/
def ddiv (a b : ℚ) : Dbl :=
  if b = 0 then none else some (binary64 (a / b))

/-- Double multiplication `a * b` with a finite right operand. -/
def dmul (a : Dbl) (b : ℚ) : Dbl :=
  match a with
  | some x => some (binary64 (x * b))
  | none => none

/-- Truncation toward zero. -/
def trunc (q : ℚ) : Int :=
  if 0 ≤ q then ⌊q⌋ else ⌈q⌉

/-- Smallest value of a C `int`. -/
def INT_MIN : Int := -2147483648

/-- Largest value of a C `int`. -/
def INT_MAX : Int := 2147483647

/-- What the compilation target fixes and the source leaves open. -/
structure Target where
  /-- Value produced by `(int) d` when `d` is not finite or its truncation is
  outside the range of `int`. -/
  outOfRange : Dbl → Int
  /-- Whether `Q_WS_MAC` is defined. -/
  q_ws_mac : Bool

/-- The conversion `(int) d`. -/
def toInt (t : Target) (d : Dbl) : Int :=
  match d with
  | some q => if INT_MIN ≤ trunc q ∧ trunc q ≤ INT_MAX then trunc q else t.outOfRange d
  | none => t.outOfRange d

/-- An x86 target that is not a Mac: the conversion instruction `cvttsd2si`
answers `0x80000000` whenever the value does not fit. -/
def x86 : Target := ⟨fun _ => INT_MIN, false⟩

/-- Reduce an integer to the range of a 32-bit `int` in two-complement form. -/
def wrap32 (n : Int) : Int :=
  (n + 2147483648) % 4294967296 - 2147483648

/-! ## OpenGL -/

/-- The OpenGL calls the widget issues, with the arguments that vary. -/
inductive GLCall
  | glClear (color depth : Bool)
  | glViewport (x y width height : Int)
  | glMatrixMode (projection : Bool)
  | glLoadIdentity
  | gluOrtho2D (left right bottom top : Int)
  | glEnable
  | glDisable
  | glBegin
  | glEnd
  | glTexCoord2i (s t : Int)
  | glVertex2i (x y : Int)
  | glDeleteTextures (name : Nat)
  | glPixelStorei (rowLength : Int)
  | glGenTextures (name : Nat)
  | glBindTexture (name : Nat)
  | glTexParameter (minFilter : Bool)
  | glTexImage2D (width height : Int)
  deriving DecidableEq

/-- A texture object: its name and the size of the image last uploaded. -/
structure Texture where
  name : Nat
  size : Option (Int × Int)
  deriving DecidableEq

/-- State of the OpenGL context as far as the widget can affect it. -/
structure GLState where
  /-- Every call issued so far, oldest first. -/
  calls : List GLCall
  /-- Texture objects generated and not deleted. -/
  textures : List Texture
  /-- Name bound to `GL_TEXTURE_RECTANGLE_EXT`. -/
  bound : Nat
  /-- How many names `glGenTextures` has handed out. -/
  generated : Nat
  deriving DecidableEq

/-- A context in which nothing has happened yet. -/
def GLState.init : GLState := ⟨[], [], 0, 0⟩

/-- Record a call that has no effect on texture objects. -/
def GLState.issue (gl : GLState) (c : GLCall) : GLState :=
  { gl with calls := gl.calls ++ [c] }

/-- The call `glDeleteTextures(1, &name)`. -/
def GLState.deleteTexture (gl : GLState) (name : Nat) : GLState :=
  { gl with
    calls := gl.calls ++ [GLCall.glDeleteTextures name]
    textures := gl.textures.filter (fun t => t.name ≠ name)
    bound := if gl.bound = name then 0 else gl.bound }

/-- The call `glGenTextures(1, &name)`: it hands out a name never used before,
never 0. -/
def GLState.genTexture (gl : GLState) : GLState × Nat :=
  ({ gl with
     calls := gl.calls ++ [GLCall.glGenTextures (gl.generated + 1)]
     textures := gl.textures ++ [⟨gl.generated + 1, none⟩]
     generated := gl.generated + 1 }, gl.generated + 1)

/-- The call `glBindTexture(GL_TEXTURE_RECTANGLE_EXT, name)`. -/
def GLState.bindTexture (gl : GLState) (name : Nat) : GLState :=
  { gl with calls := gl.calls ++ [GLCall.glBindTexture name], bound := name }

/-- The call `glTexImage2D(GL_TEXTURE_RECTANGLE_EXT, ...)`: upload into the bound
texture. -/
def GLState.texImage2D (gl : GLState) (width height : Int) : GLState :=
  { gl with
    calls := gl.calls ++ [GLCall.glTexImage2D width height]
    textures := gl.textures.map
      (fun t => if t.name = gl.bound then { t with size := some (width, height) } else t) }

/-! ## The widget -/

/-- A `QImage` as the widget sees it. -/
structure QImage where
  width : Int
  height : Int
  bits : List Nat
  deriving DecidableEq

/-- Modelled from the spec: `Controller::getImage` and `mlt_frame_get_position`
are not part of the file; a frame is represented by what they return for it,
the image (the spec has a frame-access call that yields the pixel buffer, the
width and the height for a frame handle) and the position. -/
structure Frame where
  image : QImage
  position : Int
  deriving DecidableEq

/-- Modelled from the spec: the data members of `GLWidget` that the file reads
or writes.  Their declarations are in `glwidget.h`, outside the file; the spec
lists them as the current GPU texture handle (0 = none), the pixel dimensions
of the texture, the in-flight flag (boolean), the destination rectangle
(x, y, w, h) and the target display aspect ratio; the file passes the
rectangle and the dimensions to `glVertex2i` and `glTexCoord2i`. -/
structure Widget where
  isShowingFrame : Bool
  m_image_width : Int
  m_image_height : Int
  m_texture : Nat
  m_display_ratio : ℚ
  x : Int
  y : Int
  w : Int
  h : Int
  deriving DecidableEq

/-- The constructor `GLWidget::GLWidget`.  It leaves `x`, `y`, `w`, `h`
uninitialised; their indeterminate values are the arguments. -/
def construct (x y w h : Int) : Widget :=
  { isShowingFrame := false
    m_image_width := 0
    m_image_height := 0
    m_texture := 0
    m_display_ratio := binary64 (4 / 3)
    x := x, y := y, w := w, h := h }

/-- The test of the first branch of `resizeGL`,
`(int) (this_aspect * 1000) == (int) (m_display_ratio * 1000)`, where
`this_aspect` is `(double) width / height`. -/
def specialCase (t : Target) (m_display_ratio : ℚ) (width height : Int) : Bool :=
  let this_aspect : Dbl := ddiv width height
  toInt t (dmul this_aspect 1000) == toInt t (dmul (some m_display_ratio) 1000)

/-- The method `GLWidget::resizeGL(int width, int height)`. -/
def resizeGL (t : Target) (s : Widget) (gl : GLState) (width height : Int) : Widget × GLState :=
  let wh : Int × Int :=
    if specialCase t s.m_display_ratio width height then
      (width, height)
    else if binary64 (height * s.m_display_ratio) > width then
      (width, toInt t (ddiv width s.m_display_ratio))
    else
      (toInt t (some (binary64 (height * s.m_display_ratio))), height)
  let s1 : Widget :=
    { s with
      w := wh.1
      h := wh.2
      x := Int.tdiv (wrap32 (width - wh.1)) 2
      y := Int.tdiv (wrap32 (height - wh.2)) 2 }
  let gl1 := gl.issue (GLCall.glViewport 0 0 width height)
  let gl2 := gl1.issue (GLCall.glMatrixMode true)
  let gl3 := gl2.issue GLCall.glLoadIdentity
  let gl4 := gl3.issue (GLCall.gluOrtho2D 0 width height 0)
  let gl5 := gl4.issue (GLCall.glMatrixMode false)
  (s1, gl5.issue (GLCall.glClear true false))

/-- The calls of `GLWidget::paintGL` that draw the quad.  The corner
coordinates are computed in 32-bit `int` arithmetic, one operation at a time. -/
def quadCalls (s : Widget) : List GLCall :=
  [ GLCall.glEnable, GLCall.glBegin,
    GLCall.glTexCoord2i 0 0,
    GLCall.glVertex2i s.x s.y,
    GLCall.glTexCoord2i (wrap32 (s.m_image_width - 1)) 0,
    GLCall.glVertex2i (wrap32 (wrap32 (s.x + s.w) - 1)) s.y,
    GLCall.glTexCoord2i (wrap32 (s.m_image_width - 1)) (wrap32 (s.m_image_height - 1)),
    GLCall.glVertex2i (wrap32 (wrap32 (s.x + s.w) - 1)) (wrap32 (wrap32 (s.y + s.h) - 1)),
    GLCall.glTexCoord2i 0 (wrap32 (s.m_image_height - 1)),
    GLCall.glVertex2i s.x (wrap32 (wrap32 (s.y + s.h) - 1)),
    GLCall.glEnd, GLCall.glDisable ]

/-- The method `GLWidget::paintGL()`.  It changes no data member. -/
def paintGL (t : Target) (s : Widget) (gl : GLState) : GLState :=
  let gl1 := gl.issue (GLCall.glClear true true)
  if s.m_texture ≠ 0 then
    let gl2 := if t.q_ws_mac then gl1.issue (GLCall.glClear true false) else gl1
    { gl2 with calls := gl2.calls ++ quadCalls s }
  else gl1

/-- The slot `GLWidget::showFrame(QImage image)`.  `makeCurrent()` only selects
the context; `glDraw()` is the wrapper of Qt that runs `paintGL()`. -/
def showFrame (t : Target) (s : Widget) (gl : GLState) (image : QImage) : Widget × GLState :=
  let s1 : Widget :=
    { s with
      isShowingFrame := true
      m_image_width := image.width
      m_image_height := image.height }
  let gl1 := if s1.m_texture ≠ 0 then gl.deleteTexture s1.m_texture else gl
  let gl2 := gl1.issue (GLCall.glPixelStorei s1.m_image_width)
  let gen := gl2.genTexture
  let s2 : Widget := { s1 with m_texture := gen.2 }
  let gl3 := gen.1.bindTexture s2.m_texture
  let gl4 := gl3.issue (GLCall.glTexParameter true)
  let gl5 := gl4.issue (GLCall.glTexParameter false)
  let gl6 := gl5.texImage2D s2.m_image_width s2.m_image_height
  let gl7 := paintGL t s2 gl6
  ({ s2 with isShowingFrame := false }, gl7)

/-- The effect of `GLWidget::open` on the data members, and its return value.
`controllerError` is what `Controller::open` returned, `consumerValid` what
`m_consumer->is_valid()` returned and `dar` what `m_profile->dar()` returned. -/
def open_ (s : Widget) (controllerError : Int) (consumerValid : Bool) (dar : ℚ) :
    Widget × Int :=
  if controllerError = 0 then
    if consumerValid then
      ({ s with isShowingFrame := false, m_display_ratio := dar }, 0)
    else (s, 2)
  else (s, controllerError)

/-- One emission of the signal `frameReceived(QImage, unsigned)`. -/
structure FrameReceived where
  image : QImage
  position : Nat
  deriving DecidableEq

/-- The function `GLWidget::on_frame_show`, handler of `consumer-frame-show`: the new
data members and the signals emitted. -/
def on_frame_show (s : Widget) (frame : Frame) : Widget × List FrameReceived :=
  if ¬ s.isShowingFrame then
    ({ s with isShowingFrame := true },
      [⟨frame.image, (frame.position % 4294967296).toNat⟩])
  else (s, [])

/-! ## The two threads -/

/-- The widget, its OpenGL context and the event queue of the GUI thread.
`on_frame_show` runs on the consumer thread, so the connection made in `open`
posts each `frameReceived` emission to the GUI thread, which later calls the
slot `showFrame` with it. -/
structure System where
  widget : Widget
  gl : GLState
  /-- Emissions posted and not yet delivered to `showFrame`, oldest first. -/
  pending : List FrameReceived
  /-- History: every emission of `frameReceived`, oldest first. -/
  emitted : List FrameReceived
  /-- History: every image `showFrame` was called with, oldest first. -/
  shown : List QImage

/-- What can happen to the system. -/
inductive Event
  /-- Consumer thread: `consumer-frame-show` fires for a frame. -/
  | frameShow (frame : Frame)
  /-- GUI thread: the oldest posted emission is delivered to `showFrame`. -/
  | dispatch
  /-- GUI thread: the surface is resized. -/
  | resize (width height : Int)
  /-- GUI thread: the surface is repainted. -/
  | paint

/-- One event. -/
def step (t : Target) (sys : System) : Event → System
  | Event.frameShow frame =>
    { sys with
      widget := (on_frame_show sys.widget frame).1
      pending := sys.pending ++ (on_frame_show sys.widget frame).2
      emitted := sys.emitted ++ (on_frame_show sys.widget frame).2 }
  | Event.dispatch =>
    match sys.pending with
    | [] => sys
    | e :: rest =>
      { sys with
        widget := (showFrame t sys.widget sys.gl e.image).1
        gl := (showFrame t sys.widget sys.gl e.image).2
        pending := rest
        shown := sys.shown ++ [e.image] }
  | Event.resize width height =>
    { sys with
      widget := (resizeGL t sys.widget sys.gl width height).1
      gl := (resizeGL t sys.widget sys.gl width height).2 }
  | Event.paint => { sys with gl := paintGL t sys.widget sys.gl }

/-- A sequence of events, oldest first. -/
def run (t : Target) (sys : System) (events : List Event) : System :=
  events.foldl (step t) sys

/-- The system right after a successful `open`: nothing posted, nothing shown. -/
def opened (s : Widget) (gl : GLState) (dar : ℚ) : System :=
  { widget := (open_ s 0 true dar).1, gl := gl, pending := [], emitted := [], shown := [] }

/-- A call made on the GUI thread. -/
inductive RenderCall
  | showFrame (image : QImage)
  | paintGL
  | resizeGL (width height : Int)

/-- The effect of one call on the data members and the context. -/
def render (t : Target) (p : Widget × GLState) : RenderCall → Widget × GLState
  | RenderCall.showFrame image => showFrame t p.1 p.2 image
  | RenderCall.paintGL => (p.1, paintGL t p.1 p.2)
  | RenderCall.resizeGL width height => resizeGL t p.1 p.2 width height

/-- A sequence of calls, oldest first. -/
def renderAll (t : Target) (p : Widget × GLState) (calls : List RenderCall) :
    Widget × GLState :=
  calls.foldl (render t) p

/-- The image of the last `showFrame` among the calls. -/
def lastShown (calls : List RenderCall) : Option QImage :=
  calls.foldl
    (fun acc c =>
      match c with
      | RenderCall.showFrame image => some image
      | _ => acc)
    none

/-- Replaying one OpenGL call on the list of live texture names; the flag
turns false when a texture is generated while another one is live. -/
def texScan (acc : List Nat × Bool) : GLCall → List Nat × Bool
  | GLCall.glGenTextures name => (acc.1 ++ [name], acc.2 && acc.1.isEmpty)
  | GLCall.glDeleteTextures name => (acc.1.filter (fun n => n ≠ name), acc.2)
  | _ => acc

/-- The texture names live after a list of calls, and whether every texture
was generated while no other one was live. -/
def texReplay (calls : List GLCall) : List Nat × Bool :=
  calls.foldl texScan ([], true)

/-- The calls that create or destroy a texture. -/
def textureCalls (calls : List GLCall) : List GLCall :=
  calls.filter
    (fun c =>
      match c with
      | GLCall.glGenTextures _ => true
      | GLCall.glDeleteTextures _ => true
      | _ => false)

/-- A 640 by 480 image. -/
def vga : QImage := ⟨640, 480, []⟩

/-- An 800 by 600 image. -/
def svga : QImage := ⟨800, 600, []⟩

/-- A frame whose image is 0 pixels wide. -/
def emptyFrame : Frame := ⟨⟨0, 480, []⟩, 7⟩

/-! ## Invariants -/

/-- The hand-off invariant: nothing is posted and the flag is down, or one
emission is posted and the flag is up; and the emissions are exactly the
images shown followed by the one posted. -/
def HandOff (sys : System) : Prop :=
  ((sys.pending = [] ∧ sys.widget.isShowingFrame = false) ∨
    (∃ e, sys.pending = [e] ∧ sys.widget.isShowingFrame = true)) ∧
  sys.emitted.map (fun e => e.image) = sys.shown ++ sys.pending.map (fun e => e.image)

/-- The texture invariant: no texture exists and `m_texture` is 0, or exactly
one exists, it is `m_texture`, and it holds an image of the recorded size; and
the call log replays to the same live names with no two textures ever live. -/
def OneTexture (p : Widget × GLState) : Prop :=
  ((p.1.m_texture = 0 ∧ p.2.textures = []) ∨
    (p.1.m_texture ≠ 0 ∧
      p.2.textures = [⟨p.1.m_texture, some (p.1.m_image_width, p.1.m_image_height)⟩])) ∧
  texReplay p.2.calls = (p.2.textures.map (fun x => x.name), true)

/-- The recorded size is that of the last image shown, or 0 by 0 with no
texture when none was. -/
def SizeOfLast (p : Widget × GLState) (calls : List RenderCall) : Prop :=
  match lastShown calls with
  | none => p.1.m_texture = 0 ∧ p.1.m_image_width = 0 ∧ p.1.m_image_height = 0
  | some image =>
    p.1.m_texture ≠ 0 ∧ p.1.m_image_width = image.width ∧ p.1.m_image_height = image.height

/-! ## The test as the spec words it, and inputs used below -/

/-- The special-case test in the words of the spec,
`round(surfaceAspect * 1000) == round(targetAspectRatio * 1000)`: the same
double products as in `specialCase`, rounded to the nearest integer. -/
def specRoundTest (m_display_ratio : ℚ) (width height : Int) : Bool :=
  round (binary64 (binary64 (width / height) * 1000)) == round (binary64 (m_display_ratio * 1000))

/-- A widget freshly constructed and opened on a 16:9 profile. -/
def wide : Widget := (open_ (construct 0 0 0 0) 0 true (binary64 (16 / 9))).1

/-- A widget opened on a profile whose display aspect ratio is the double just
below the one nearest to 1/40, `0x1.9999999999999p-6`. -/
def narrow : Widget :=
  (open_ (construct 0 0 0 0) 0 true (7205759403792793 / 288230376151711744)).1

/-- A widget opened on a profile that reports a display aspect ratio of 0. -/
def flat : Widget := (open_ (construct 0 0 0 0) 0 true 0).1

/-! ## Rounding to binary64 -/

theorem rne_intCast (n : Int) : rne (n : ℚ) = n := by
  simp [rne]

theorem rne_mono {x y : ℚ} (h : x ≤ y) : rne x ≤ rne y := by
  have hf : ⌊x⌋ ≤ ⌊y⌋ := Int.floor_mono h
  rcases lt_or_eq_of_le hf with hlt | heq
  · have h1 : rne x ≤ ⌊x⌋ + 1 := by
      unfold rne; split_ifs <;> omega
    have h2 : ⌊y⌋ ≤ rne y := by
      unfold rne; split_ifs <;> omega
    omega
  · unfold rne
    rw [heq]
    split_ifs <;> first | omega | (exfalso; linarith)

theorem two_zpow_pos (e : Int) : (0 : ℚ) < 2 ^ e := by positivity

theorem two_zpow_split (e : Int) (k : Int) : (2 : ℚ) ^ (e + k) = 2 ^ k * 2 ^ (e) := by
  rw [zpow_add₀ (by norm_num : (2 : ℚ) ≠ 0)]; ring

theorem log_spec {q : ℚ} (hq : 0 < q) :
    (2 : ℚ) ^ Int.log 2 q ≤ q ∧ q < (2 : ℚ) ^ (Int.log 2 q + 1) := by
  have h1 := Int.zpow_log_le_self (b := 2) (by norm_num) hq
  have h2 := Int.lt_zpow_succ_log_self (b := 2) (by norm_num) q
  simp only [Nat.cast_ofNat] at h1 h2
  exact ⟨h1, h2⟩

theorem log_unique {q : ℚ} {e : Int} (hq : 0 < q) (h1 : (2 : ℚ) ^ e ≤ q)
    (h2 : q < (2 : ℚ) ^ (e + 1)) : Int.log 2 q = e := by
  have a := (Int.zpow_le_iff_le_log (b := 2) (by norm_num) (x := e) hq).1
    (by simpa using h1)
  have b := (Int.lt_zpow_iff_log_lt (b := 2) (by norm_num) (x := e + 1) hq).1
    (by simpa using h2)
  omega

theorem binary64_zero : binary64 0 = 0 := by simp [binary64]

theorem binary64_pos_eq {q : ℚ} (hq : 0 < q) :
    binary64 q = rne (q / (2 : ℚ) ^ (Int.log 2 q - 52)) * (2 : ℚ) ^ (Int.log 2 q - 52) := by
  unfold binary64
  rw [if_neg (ne_of_gt hq), abs_of_pos hq]

theorem binary64_bounds {q : ℚ} (hq : 0 < q) :
    (2 : ℚ) ^ Int.log 2 q ≤ binary64 q ∧ binary64 q ≤ (2 : ℚ) ^ (Int.log 2 q + 1) := by
  obtain ⟨lo, hi⟩ := log_spec hq
  have hu := two_zpow_pos (Int.log 2 q - 52)
  have e1 : (2 : ℚ) ^ Int.log 2 q = 4503599627370496 * 2 ^ (Int.log 2 q - 52) := by
    have := two_zpow_split (Int.log 2 q - 52) 52
    rw [show Int.log 2 q - 52 + 52 = Int.log 2 q by ring] at this
    rw [this]; norm_num
  have e2 : (2 : ℚ) ^ (Int.log 2 q + 1) = 9007199254740992 * 2 ^ (Int.log 2 q - 52) := by
    have := two_zpow_split (Int.log 2 q - 52) 53
    rw [show Int.log 2 q - 52 + 53 = Int.log 2 q + 1 by ring] at this
    rw [this]; norm_num
  have a1 : ((4503599627370496 : Int) : ℚ) ≤ q / 2 ^ (Int.log 2 q - 52) := by
    rw [le_div_iff₀ hu]; push_cast; linarith
  have a2 : q / 2 ^ (Int.log 2 q - 52) ≤ ((9007199254740992 : Int) : ℚ) := by
    rw [div_le_iff₀ hu]; push_cast; linarith
  have r1 := rne_mono a1
  have r2 := rne_mono a2
  rw [rne_intCast] at r1 r2
  have c1 : ((4503599627370496 : Int) : ℚ) ≤ (rne (q / 2 ^ (Int.log 2 q - 52)) : ℚ) := by
    exact_mod_cast r1
  have c2 : (rne (q / 2 ^ (Int.log 2 q - 52)) : ℚ) ≤ ((9007199254740992 : Int) : ℚ) := by
    exact_mod_cast r2
  rw [binary64_pos_eq hq, e1, e2]
  push_cast at c1 c2
  constructor
  · exact mul_le_mul_of_nonneg_right c1 hu.le
  · exact mul_le_mul_of_nonneg_right c2 hu.le

theorem binary64_nonneg {q : ℚ} (hq : 0 ≤ q) : 0 ≤ binary64 q := by
  rcases eq_or_lt_of_le hq with h | h
  · rw [← h, binary64_zero]
  · exact le_trans (two_zpow_pos _).le (binary64_bounds h).1

theorem binary64_mono {x y : ℚ} (hx : 0 ≤ x) (h : x ≤ y) : binary64 x ≤ binary64 y := by
  rcases eq_or_lt_of_le hx with h0 | h0
  · rw [← h0, binary64_zero]; exact binary64_nonneg (le_trans hx h)
  · have hy : 0 < y := lt_of_lt_of_le h0 h
    have hl : Int.log 2 x ≤ Int.log 2 y := Int.log_mono_right h0 h
    rcases eq_or_lt_of_le hl with he | he
    · rw [binary64_pos_eq h0, binary64_pos_eq hy, he]
      have hu := two_zpow_pos (Int.log 2 y - 52)
      have : rne (x / 2 ^ (Int.log 2 y - 52)) ≤ rne (y / 2 ^ (Int.log 2 y - 52)) :=
        rne_mono (div_le_div_of_nonneg_right h hu.le)
      have hc : (rne (x / 2 ^ (Int.log 2 y - 52)) : ℚ) ≤ rne (y / 2 ^ (Int.log 2 y - 52)) := by
        exact_mod_cast this
      exact mul_le_mul_of_nonneg_right hc hu.le
    · have b1 := (binary64_bounds h0).2
      have b2 := (binary64_bounds hy).1
      have : (2 : ℚ) ^ (Int.log 2 x + 1) ≤ 2 ^ Int.log 2 y :=
        zpow_le_zpow_right₀ (by norm_num) (by omega)
      linarith

theorem binary64_intCast (n : Int) (h0 : 0 ≤ n) (h : n < 9007199254740992) :
    binary64 (n : ℚ) = n := by
  rcases eq_or_lt_of_le h0 with hz | hp
  · rw [← hz]; simp [binary64_zero]
  · have hq : (0 : ℚ) < n := by exact_mod_cast hp
    have hlt : (n : ℚ) < (2 : ℚ) ^ (53 : Int) := by
      have : (n : ℚ) < 9007199254740992 := by exact_mod_cast h
      norm_num; exact this
    have hlog : Int.log 2 (n : ℚ) < 53 :=
      (Int.lt_zpow_iff_log_lt (b := 2) (by norm_num) (x := 53) hq).1 (by simpa using hlt)
    obtain ⟨k, hk⟩ : ∃ k : ℕ, (k : Int) = 52 - Int.log 2 (n : ℚ) :=
      ⟨(52 - Int.log 2 (n : ℚ)).toNat, Int.toNat_of_nonneg (by omega)⟩
    have hu : (2 : ℚ) ^ (Int.log 2 (n : ℚ) - 52) = ((2 : ℚ) ^ k)⁻¹ := by
      rw [show Int.log 2 (n : ℚ) - 52 = -(k : Int) by omega, zpow_neg, zpow_natCast]
    rw [binary64_pos_eq hq, hu]
    have hk2 : (0 : ℚ) < 2 ^ k := by positivity
    have : (n : ℚ) / ((2 : ℚ) ^ k)⁻¹ = ((n * 2 ^ k : Int) : ℚ) := by
      push_cast; field_simp
    rw [this, rne_intCast]
    push_cast; field_simp

theorem rne_eq_of {x : ℚ} {m : Int} (h1 : (m : ℚ) - 1 / 2 < x) (h2 : x < (m : ℚ) + 1 / 2) :
    rne x = m := by
  have hf : ⌊x⌋ = m ∨ ⌊x⌋ = m - 1 := by
    have a : m - 1 ≤ ⌊x⌋ := Int.le_floor.2 (by push_cast; linarith)
    have b : ⌊x⌋ < m + 1 := Int.floor_lt.2 (by push_cast; linarith)
    omega
  have hfl := Int.floor_le x
  have hfl2 := Int.lt_floor_add_one x
  unfold rne
  rcases hf with hf | hf
  · rw [hf] at hfl hfl2 ⊢
    rw [if_pos (by linarith)]
  · rw [hf] at hfl hfl2 ⊢
    push_cast at hfl hfl2 ⊢
    rw [if_neg (by linarith), if_pos (by linarith)]
    ring

theorem binary64_eq_of {q : ℚ} (e m : Int) (hq : 0 < q) (h1 : (2 : ℚ) ^ e ≤ q)
    (h2 : q < (2 : ℚ) ^ (e + 1))
    (h3 : (m : ℚ) - 1 / 2 < q / 2 ^ (e - 52)) (h4 : q / 2 ^ (e - 52) < (m : ℚ) + 1 / 2) :
    binary64 q = m * 2 ^ (e - 52) := by
  rw [binary64_pos_eq hq, log_unique hq h1 h2, rne_eq_of h3 h4]

/-! ## Values of the rounding at the inputs used below -/

theorem binary64_four_thirds : binary64 (4 / 3) = 6004799503160661 / 4503599627370496 := by
  rw [binary64_eq_of (0) 6004799503160661 (by norm_num) (by norm_num) (by norm_num)
    (by norm_num) (by norm_num)]
  norm_num

theorem binary64_four_thirds_permille : binary64 (6004799503160661 / 4503599627370496 * 1000) = 5864062014805333 / 4398046511104 := by
  rw [binary64_eq_of (10) 5864062014805333 (by norm_num) (by norm_num) (by norm_num)
    (by norm_num) (by norm_num)]
  norm_num

theorem binary64_400_four_thirds : binary64 (400 * (6004799503160661 / 4503599627370496)) = 2345624805922133 / 4398046511104 := by
  rw [binary64_eq_of (9) 4691249611844266 (by norm_num) (by norm_num) (by norm_num)
    (by norm_num) (by norm_num)]
  norm_num

theorem binary64_885_498 : binary64 (885 / 498) = 1000423109995705 / 562949953421312 := by
  rw [binary64_eq_of (0) 8003384879965640 (by norm_num) (by norm_num) (by norm_num)
    (by norm_num) (by norm_num)]
  norm_num

theorem binary64_885_498_permille : binary64 (1000423109995705 / 562949953421312 * 1000) = 7815805546841445 / 4398046511104 := by
  rw [binary64_eq_of (10) 7815805546841445 (by norm_num) (by norm_num) (by norm_num)
    (by norm_num) (by norm_num)]
  norm_num

theorem binary64_16_9 : binary64 (16 / 9) = 2001599834386887 / 1125899906842624 := by
  rw [binary64_eq_of (0) 8006399337547548 (by norm_num) (by norm_num) (by norm_num)
    (by norm_num) (by norm_num)]
  norm_num

theorem binary64_16_9_permille : binary64 (2001599834386887 / 1125899906842624 * 1000) = 7818749353073777 / 4398046511104 := by
  rw [binary64_eq_of (10) 7818749353073777 (by norm_num) (by norm_num) (by norm_num)
    (by norm_num) (by norm_num)]
  norm_num

theorem binary64_fortieth : binary64 (75 / 3000) = 3602879701896397 / 144115188075855872 := by
  rw [binary64_eq_of (-6) 7205759403792794 (by norm_num) (by norm_num) (by norm_num)
    (by norm_num) (by norm_num)]
  norm_num

theorem binary64_fortieth_permille : binary64 (3602879701896397 / 144115188075855872 * 1000) = 25 := by
  rw [binary64_eq_of (4) 7036874417766400 (by norm_num) (by norm_num) (by norm_num)
    (by norm_num) (by norm_num)]
  norm_num

theorem binary64_r2_permille : binary64 (7205759403792793 / 288230376151711744 * 1000) = 7036874417766399 / 281474976710656 := by
  rw [binary64_eq_of (4) 7036874417766399 (by norm_num) (by norm_num) (by norm_num)
    (by norm_num) (by norm_num)]
  norm_num

theorem binary64_3000_r2 : binary64 (3000 * (7205759403792793 / 288230376151711744)) = 75 := by
  rw [binary64_eq_of (6) 5277655813324800 (by norm_num) (by norm_num) (by norm_num)
    (by norm_num) (by norm_num)]
  norm_num

/-! ## Conversions and the fitted size -/

theorem trunc_of_nonneg {q : ℚ} (h : 0 ≤ q) : trunc q = ⌊q⌋ := by
  simp [trunc, h]

theorem wrap32_of_fits {n : Int} (h1 : INT_MIN ≤ n) (h2 : n ≤ INT_MAX) : wrap32 n = n := by
  unfold INT_MIN at h1; unfold INT_MAX at h2; unfold wrap32; omega

theorem toInt_of_bounds (t : Target) {q : ℚ} {n : Int} (h0 : 0 ≤ q) (h1 : q ≤ (n : ℚ))
    (hn : n ≤ INT_MAX) :
    toInt t (some q) = trunc q ∧ 0 ≤ trunc q ∧ trunc q ≤ n := by
  have a : 0 ≤ ⌊q⌋ := Int.floor_nonneg.2 h0
  have b : ⌊q⌋ ≤ n := by
    have : (⌊q⌋ : ℚ) ≤ n := le_trans (Int.floor_le q) h1
    exact_mod_cast this
  rw [trunc_of_nonneg h0]
  refine ⟨?_, a, b⟩
  show (if INT_MIN ≤ trunc q ∧ trunc q ≤ INT_MAX then trunc q else t.outOfRange (some q)) = ⌊q⌋
  rw [trunc_of_nonneg h0, if_pos]
  unfold INT_MIN; unfold INT_MAX at hn ⊢
  omega

/-- The fitted size computed by branches two and three stays inside the surface. -/
theorem fitted_size (t : Target) (r : ℚ) (W H : Int) (hW : 0 < W) (hWm : W ≤ INT_MAX)
    (hH : 0 < H) (hHm : H ≤ INT_MAX) (hr : 0 < r) :
    (binary64 (H * r) > W →
      toInt t (ddiv W r) = trunc (binary64 (W / r)) ∧
        0 ≤ trunc (binary64 (W / r)) ∧ trunc (binary64 (W / r)) ≤ H) ∧
    (¬ binary64 (H * r) > W →
      toInt t (some (binary64 (H * r))) = trunc (binary64 (H * r)) ∧
        0 ≤ trunc (binary64 (H * r)) ∧ trunc (binary64 (H * r)) ≤ W) := by
  have hWq : (0 : ℚ) < W := by exact_mod_cast hW
  have hHq : (0 : ℚ) < H := by exact_mod_cast hH
  have hWfl : binary64 (W : ℚ) = W :=
    binary64_intCast W hW.le (by unfold INT_MAX at hWm; omega)
  have hHfl : binary64 (H : ℚ) = H :=
    binary64_intCast H hH.le (by unfold INT_MAX at hHm; omega)
  constructor
  · intro hgt
    have hex : (W : ℚ) < H * r := by
      by_contra hcon
      have := binary64_mono (mul_nonneg hHq.le hr.le) (not_lt.1 hcon)
      rw [hWfl] at this
      exact absurd hgt (not_lt.2 this)
    have hdiv : (W : ℚ) / r ≤ H := by
      rw [div_le_iff₀ hr]; exact hex.le
    have h1 : binary64 ((W : ℚ) / r) ≤ H := by
      have := binary64_mono (div_nonneg hWq.le hr.le) hdiv
      rwa [hHfl] at this
    have h0 : 0 ≤ binary64 ((W : ℚ) / r) := binary64_nonneg (div_nonneg hWq.le hr.le)
    have hd : ddiv W r = some (binary64 (W / r)) := by
      unfold ddiv; rw [if_neg (ne_of_gt hr)]
    rw [hd]
    exact toInt_of_bounds t h0 h1 hHm
  · intro hle
    have h1 : binary64 ((H : ℚ) * r) ≤ W := not_lt.1 hle
    have h0 : 0 ≤ binary64 ((H : ℚ) * r) := binary64_nonneg (mul_nonneg hHq.le hr.le)
    exact toInt_of_bounds t h0 h1 hWm

theorem toInt_eq_of (t : Target) {q : ℚ} {k : Int} (h0 : 0 ≤ k) (hk : k ≤ INT_MAX)
    (h1 : (k : ℚ) ≤ q) (h2 : q < (k : ℚ) + 1) : toInt t (some q) = k := by
  have hq : 0 ≤ q := le_trans (by exact_mod_cast h0) h1
  have hf : ⌊q⌋ = k := Int.floor_eq_iff.2 ⟨h1, h2⟩
  show (if INT_MIN ≤ trunc q ∧ trunc q ≤ INT_MAX then trunc q else t.outOfRange (some q)) = k
  rw [trunc_of_nonneg hq, hf, if_pos]
  unfold INT_MIN; unfold INT_MAX at hk ⊢
  omega

theorem ratio_pos_default (x y w h : Int) : 0 < (construct x y w h).m_display_ratio := by
  show 0 < binary64 (4 / 3)
  rw [binary64_four_thirds]; norm_num

/-- On an 800 by 600 surface the default ratio passes the special-case test. -/
theorem specialCase_800_600 (t : Target) : specialCase t (binary64 (4 / 3)) 800 600 = true := by
  have e : ((800 : Int) : ℚ) / ((600 : Int) : ℚ) = 4 / 3 := by norm_num
  have n : ¬ ((600 : Int) : ℚ) = 0 := by norm_num
  simp only [specialCase, ddiv, if_neg n, e, dmul, beq_self_eq_true]

/-- On an 800 by 400 surface the default ratio fails the special-case test. -/
theorem specialCase_800_400 (t : Target) : specialCase t (binary64 (4 / 3)) 800 400 = false := by
  have e : ((800 : Int) : ℚ) / ((400 : Int) : ℚ) = ((2 : Int) : ℚ) := by norm_num
  have e2 : ((2 : Int) : ℚ) * 1000 = ((2000 : Int) : ℚ) := by norm_num
  have n : ¬ ((400 : Int) : ℚ) = 0 := by norm_num
  have a : toInt t (some (binary64 (binary64 (((2 : Int) : ℚ)) * 1000))) = 2000 := by
    rw [binary64_intCast 2 (by norm_num) (by norm_num), e2,
      binary64_intCast 2000 (by norm_num) (by norm_num)]
    exact toInt_eq_of t (by norm_num) (by unfold INT_MAX; norm_num) (by norm_num) (by norm_num)
  have b : toInt t (some (binary64 (binary64 (4 / 3) * 1000))) = 1333 := by
    rw [binary64_four_thirds, binary64_four_thirds_permille]
    exact toInt_eq_of t (by norm_num) (by unfold INT_MAX; norm_num) (by norm_num) (by norm_num)
  simp only [specialCase, ddiv, if_neg n, e, dmul, a, b]
  rfl

/-! ## The rectangle stored by `resizeGL` -/

/-- The rectangle `resizeGL` stores, read off its definition. -/
theorem resizeGL_fields (t : Target) (s : Widget) (gl : GLState) (W H : Int) :
    (resizeGL t s gl W H).1.x = Int.tdiv (wrap32 (W - (resizeGL t s gl W H).1.w)) 2 ∧
    (resizeGL t s gl W H).1.y = Int.tdiv (wrap32 (H - (resizeGL t s gl W H).1.h)) 2 ∧
    (resizeGL t s gl W H).1.w =
      (if specialCase t s.m_display_ratio W H then W
       else if binary64 (H * s.m_display_ratio) > W then W
       else toInt t (some (binary64 (H * s.m_display_ratio)))) ∧
    (resizeGL t s gl W H).1.h =
      (if specialCase t s.m_display_ratio W H then H
       else if binary64 (H * s.m_display_ratio) > W then toInt t (ddiv W s.m_display_ratio)
       else H) := by
  refine ⟨rfl, rfl, ?_, ?_⟩
  · unfold resizeGL; simp only; split_ifs <;> rfl
  · unfold resizeGL; simp only; split_ifs <;> rfl

/-- For a positive surface and ratio the stored size is within the surface and
the origin is half of what is left over. -/
theorem resizeGL_size_bounds (t : Target) (s : Widget) (gl : GLState) (W H : Int)
    (hW : 0 < W) (hWm : W ≤ INT_MAX) (hH : 0 < H) (hHm : H ≤ INT_MAX)
    (hr : 0 < s.m_display_ratio) :
    0 ≤ (resizeGL t s gl W H).1.w ∧ (resizeGL t s gl W H).1.w ≤ W ∧
    0 ≤ (resizeGL t s gl W H).1.h ∧ (resizeGL t s gl W H).1.h ≤ H ∧
    (resizeGL t s gl W H).1.x = (W - (resizeGL t s gl W H).1.w) / 2 ∧
    (resizeGL t s gl W H).1.y = (H - (resizeGL t s gl W H).1.h) / 2 := by
  obtain ⟨hx, hy, hw, hh⟩ := resizeGL_fields t s gl W H
  obtain ⟨f2, f3⟩ := fitted_size t s.m_display_ratio W H hW hWm hH hHm hr
  have bw : 0 ≤ (resizeGL t s gl W H).1.w ∧ (resizeGL t s gl W H).1.w ≤ W := by
    rw [hw]; split_ifs with h1 h2
    · omega
    · omega
    · obtain ⟨e, a, b⟩ := f3 h2; rw [e]; exact ⟨a, b⟩
  have bh : 0 ≤ (resizeGL t s gl W H).1.h ∧ (resizeGL t s gl W H).1.h ≤ H := by
    rw [hh]; split_ifs with h1 h2
    · omega
    · obtain ⟨e, a, b⟩ := f2 h2; rw [e]; exact ⟨a, b⟩
    · omega
  refine ⟨bw.1, bw.2, bh.1, bh.2, ?_, ?_⟩
  · rw [hx, wrap32_of_fits (by unfold INT_MIN; omega) (by omega),
      Int.tdiv_eq_ediv (by omega) (by norm_num)]
  · rw [hy, wrap32_of_fits (by unfold INT_MIN; omega) (by omega),
      Int.tdiv_eq_ediv (by omega) (by norm_num)]

/-- C3: for a positive surface size and a positive display aspect ratio the
rectangle stored by `resizeGL` lies inside the surface: `0 ≤ x`, `0 ≤ y`,
`x + w ≤ width`, `y + h ≤ height`, with `w` and `h` not negative. -/
theorem resizeGL_within_surface (t : Target) (s : Widget) (gl : GLState) (width height : Int)
    (hW : 0 < width) (hWm : width ≤ INT_MAX) (hH : 0 < height) (hHm : height ≤ INT_MAX)
    (hr : 0 < s.m_display_ratio) :
    0 ≤ (resizeGL t s gl width height).1.x ∧ 0 ≤ (resizeGL t s gl width height).1.y ∧
    (resizeGL t s gl width height).1.x + (resizeGL t s gl width height).1.w ≤ width ∧
    (resizeGL t s gl width height).1.y + (resizeGL t s gl width height).1.h ≤ height ∧
    0 ≤ (resizeGL t s gl width height).1.w ∧ 0 ≤ (resizeGL t s gl width height).1.h := by
  obtain ⟨a, b, c, d, ex, ey⟩ := resizeGL_size_bounds t s gl width height hW hWm hH hHm hr
  rw [ex, ey]
  omega

/-- C4: for a positive surface size and a positive display aspect ratio the
stored rectangle is centred to within one unit on both axes, the halves being
taken with the truncating integer division of C. -/
theorem resizeGL_centred (t : Target) (s : Widget) (gl : GLState) (width height : Int)
    (hW : 0 < width) (hWm : width ≤ INT_MAX) (hH : 0 < height) (hHm : height ≤ INT_MAX)
    (hr : 0 < s.m_display_ratio) :
    |((resizeGL t s gl width height).1.x + Int.tdiv (resizeGL t s gl width height).1.w 2)
        - Int.tdiv width 2| ≤ 1 ∧
    |((resizeGL t s gl width height).1.y + Int.tdiv (resizeGL t s gl width height).1.h 2)
        - Int.tdiv height 2| ≤ 1 := by
  obtain ⟨a, b, c, d, ex, ey⟩ := resizeGL_size_bounds t s gl width height hW hWm hH hHm hr
  rw [ex, ey, Int.tdiv_eq_ediv a (by norm_num), Int.tdiv_eq_ediv c (by norm_num),
    Int.tdiv_eq_ediv hW.le (by norm_num), Int.tdiv_eq_ediv hH.le (by norm_num)]
  constructor <;> rw [abs_le] <;> omega

/-- C9: for a positive surface size and a positive ratio `r`, when the
special-case test fails the stored size is `(width, trunc (width / r))` if
`height * r > width` and `(trunc (height * r), height)` otherwise, the products
and quotients being those of double arithmetic, and the origin is
`((width - w) / 2, (height - h) / 2)` in the integer division of C. -/
theorem resizeGL_letterbox (t : Target) (s : Widget) (gl : GLState) (width height : Int)
    (hW : 0 < width) (hWm : width ≤ INT_MAX) (hH : 0 < height) (hHm : height ≤ INT_MAX)
    (hr : 0 < s.m_display_ratio) (hs : specialCase t s.m_display_ratio width height = false) :
    (binary64 (height * s.m_display_ratio) > width →
      (resizeGL t s gl width height).1.w = width ∧
      (resizeGL t s gl width height).1.h = trunc (binary64 (width / s.m_display_ratio))) ∧
    (¬ binary64 (height * s.m_display_ratio) > width →
      (resizeGL t s gl width height).1.w = trunc (binary64 (height * s.m_display_ratio)) ∧
      (resizeGL t s gl width height).1.h = height) ∧
    (resizeGL t s gl width height).1.x =
      Int.tdiv (width - (resizeGL t s gl width height).1.w) 2 ∧
    (resizeGL t s gl width height).1.y =
      Int.tdiv (height - (resizeGL t s gl width height).1.h) 2 := by
  obtain ⟨a, b, c, d, -, -⟩ := resizeGL_size_bounds t s gl width height hW hWm hH hHm hr
  obtain ⟨hx, hy, hw, hh⟩ := resizeGL_fields t s gl width height
  obtain ⟨f2, f3⟩ := fitted_size t s.m_display_ratio width height hW hWm hH hHm hr
  rw [hs] at hw hh
  refine ⟨fun hgt => ?_, fun hle => ?_, ?_, ?_⟩
  · rw [hw, hh]; simp only [Bool.false_eq_true, if_false, if_pos hgt]
    exact ⟨trivial, (f2 hgt).1⟩
  · rw [hw, hh]; simp only [Bool.false_eq_true, if_false, if_neg hle]
    exact ⟨(f3 hle).1, trivial⟩
  · rw [hx, wrap32_of_fits (by unfold INT_MIN; omega) (by omega)]
  · rw [hy, wrap32_of_fits (by unfold INT_MIN; omega) (by omega)]

/-- C10, amended: whenever the truncated per-mille aspects agree, `resizeGL`
stores the full surface with origin `(0, 0)`. -/
theorem resizeGL_special_case (t : Target) (s : Widget) (gl : GLState) (width height : Int)
    (hs : specialCase t s.m_display_ratio width height = true) :
    (resizeGL t s gl width height).1.x = 0 ∧ (resizeGL t s gl width height).1.y = 0 ∧
    (resizeGL t s gl width height).1.w = width ∧
    (resizeGL t s gl width height).1.h = height := by
  obtain ⟨hx, hy, hw, hh⟩ := resizeGL_fields t s gl width height
  rw [hs] at hw hh
  simp only [if_true] at hw hh
  rw [hx, hy, hw, hh]
  simp [wrap32]

theorem trunc_eq_of {q : ℚ} {k : Int} (h0 : 0 ≤ k) (h1 : (k : ℚ) ≤ q) (h2 : q < (k : ℚ) + 1) :
    trunc q = k := by
  have hq : 0 ≤ q := le_trans (by exact_mod_cast h0) h1
  rw [trunc_of_nonneg hq]
  exact Int.floor_eq_iff.2 ⟨h1, h2⟩

/-- Witness of C3 on an 800 by 400 surface with the default ratio. -/
theorem resizeGL_within_surface_800_400 :
    0 ≤ (resizeGL x86 (construct 0 0 0 0) GLState.init 800 400).1.x ∧
    0 ≤ (resizeGL x86 (construct 0 0 0 0) GLState.init 800 400).1.y ∧
    (resizeGL x86 (construct 0 0 0 0) GLState.init 800 400).1.x +
      (resizeGL x86 (construct 0 0 0 0) GLState.init 800 400).1.w ≤ 800 ∧
    (resizeGL x86 (construct 0 0 0 0) GLState.init 800 400).1.y +
      (resizeGL x86 (construct 0 0 0 0) GLState.init 800 400).1.h ≤ 400 ∧
    0 ≤ (resizeGL x86 (construct 0 0 0 0) GLState.init 800 400).1.w ∧
    0 ≤ (resizeGL x86 (construct 0 0 0 0) GLState.init 800 400).1.h :=
  resizeGL_within_surface x86 (construct 0 0 0 0) GLState.init 800 400 (by norm_num)
    (by unfold INT_MAX; norm_num) (by norm_num) (by unfold INT_MAX; norm_num)
    (ratio_pos_default 0 0 0 0)

/-- Witness of C4 on a 1001 by 400 surface with the default ratio. -/
theorem resizeGL_centred_1001_400 :
    |((resizeGL x86 (construct 0 0 0 0) GLState.init 1001 400).1.x +
        Int.tdiv (resizeGL x86 (construct 0 0 0 0) GLState.init 1001 400).1.w 2)
        - Int.tdiv 1001 2| ≤ 1 ∧
    |((resizeGL x86 (construct 0 0 0 0) GLState.init 1001 400).1.y +
        Int.tdiv (resizeGL x86 (construct 0 0 0 0) GLState.init 1001 400).1.h 2)
        - Int.tdiv 400 2| ≤ 1 :=
  resizeGL_centred x86 (construct 0 0 0 0) GLState.init 1001 400 (by norm_num)
    (by unfold INT_MAX; norm_num) (by norm_num) (by unfold INT_MAX; norm_num)
    (ratio_pos_default 0 0 0 0)

/-- Witness of C9: an 800 by 400 surface with the default ratio 4/3 gives
`(x, y, w, h) = (133, 0, 533, 400)`. -/
theorem resizeGL_letterbox_800_400 :
    (resizeGL x86 (construct 0 0 0 0) GLState.init 800 400).1.x = 133 ∧
    (resizeGL x86 (construct 0 0 0 0) GLState.init 800 400).1.y = 0 ∧
    (resizeGL x86 (construct 0 0 0 0) GLState.init 800 400).1.w = 533 ∧
    (resizeGL x86 (construct 0 0 0 0) GLState.init 800 400).1.h = 400 := by
  obtain ⟨-, h3, hx, hy⟩ :=
    resizeGL_letterbox x86 (construct 0 0 0 0) GLState.init 800 400 (by norm_num)
      (by unfold INT_MAX; norm_num) (by norm_num) (by unfold INT_MAX; norm_num)
      (ratio_pos_default 0 0 0 0) (specialCase_800_400 x86)
  have hv : binary64 (((400 : Int) : ℚ) * (construct 0 0 0 0).m_display_ratio) =
      2345624805922133 / 4398046511104 := by
    show binary64 (((400 : Int) : ℚ) * binary64 (4 / 3)) = _
    rw [binary64_four_thirds, Int.cast_ofNat, binary64_400_four_thirds]
  rw [hv] at h3
  have ht : trunc (2345624805922133 / 4398046511104 : ℚ) = 533 :=
    trunc_eq_of (by norm_num) (by norm_num) (by norm_num)
  obtain ⟨hw, hh⟩ := h3 (by norm_num)
  rw [ht] at hw
  rw [hx, hy, hw, hh]
  refine ⟨by decide, by decide, rfl, rfl⟩

/-- Witness of the amended C10: an 800 by 600 surface with the default ratio
4/3 gives `(x, y, w, h) = (0, 0, 800, 600)`. -/
theorem resizeGL_special_case_800_600 :
    (resizeGL x86 (construct 0 0 0 0) GLState.init 800 600).1.x = 0 ∧
    (resizeGL x86 (construct 0 0 0 0) GLState.init 800 600).1.y = 0 ∧
    (resizeGL x86 (construct 0 0 0 0) GLState.init 800 600).1.w = 800 ∧
    (resizeGL x86 (construct 0 0 0 0) GLState.init 800 600).1.h = 600 :=
  resizeGL_special_case x86 (construct 0 0 0 0) GLState.init 800 600 (specialCase_800_600 x86)

theorem wide_ratio : wide.m_display_ratio = binary64 (16 / 9) := rfl

theorem narrow_ratio :
    narrow.m_display_ratio = 7205759403792793 / 288230376151711744 := rfl

theorem flat_ratio : flat.m_display_ratio = 0 := rfl

/-- On an 885 by 498 surface a 16:9 ratio passes the special-case test: both
per-mille aspects truncate to 1777. -/
theorem specialCase_885_498 (t : Target) : specialCase t (binary64 (16 / 9)) 885 498 = true := by
  have n : ¬ ((498 : Int) : ℚ) = 0 := by norm_num
  have a : toInt t (some (binary64 (binary64 (((885 : Int) : ℚ) / ((498 : Int) : ℚ)) * 1000)))
      = 1777 := by
    rw [Int.cast_ofNat, Int.cast_ofNat, binary64_885_498, binary64_885_498_permille]
    exact toInt_eq_of t (by norm_num) (by unfold INT_MAX; norm_num) (by norm_num) (by norm_num)
  have b : toInt t (some (binary64 (binary64 (16 / 9) * 1000))) = 1777 := by
    rw [binary64_16_9, binary64_16_9_permille]
    exact toInt_eq_of t (by norm_num) (by unfold INT_MAX; norm_num) (by norm_num) (by norm_num)
  simp only [specialCase, ddiv, if_neg n, dmul, a, b]
  rfl

/-- Rounded to the nearest integer the same two per-mille aspects differ:
1777 against 1778. -/
theorem specRoundTest_885_498 : specRoundTest (binary64 (16 / 9)) 885 498 = false := by
  have a : round (binary64 (binary64 (((885 : Int) : ℚ) / ((498 : Int) : ℚ)) * 1000)) = 1777 := by
    rw [Int.cast_ofNat, Int.cast_ofNat, binary64_885_498, binary64_885_498_permille, round_eq,
      Int.floor_eq_iff]
    norm_num
  have b : round (binary64 (binary64 (16 / 9) * 1000)) = 1778 := by
    rw [binary64_16_9, binary64_16_9_permille, round_eq, Int.floor_eq_iff]
    norm_num
  simp only [specRoundTest, a, b]
  rfl

/-- On a 75 by 3000 surface the ratio `0x1.9999999999999p-6` fails the
special-case test: the per-mille aspects truncate to 25 and to 24. -/
theorem specialCase_75_3000 (t : Target) :
    specialCase t (7205759403792793 / 288230376151711744) 75 3000 = false := by
  have n : ¬ ((3000 : Int) : ℚ) = 0 := by norm_num
  have a : toInt t (some (binary64 (binary64 (((75 : Int) : ℚ) / ((3000 : Int) : ℚ)) * 1000)))
      = 25 := by
    rw [Int.cast_ofNat, Int.cast_ofNat, binary64_fortieth, binary64_fortieth_permille]
    exact toInt_eq_of t (by norm_num) (by unfold INT_MAX; norm_num) (by norm_num) (by norm_num)
  have b : toInt t (some (binary64 (7205759403792793 / 288230376151711744 * 1000))) = 24 := by
    rw [binary64_r2_permille]
    exact toInt_eq_of t (by norm_num) (by unfold INT_MAX; norm_num) (by norm_num) (by norm_num)
  simp only [specialCase, ddiv, if_neg n, dmul, a, b]
  rfl

/-- Counterexample to C10 as stated.  On an 885 by 498 surface with a 16:9
ratio `resizeGL` stores the full surface although the per-mille aspects
rounded to the nearest integer differ.  Reading "round" as the truncation of
the code does not rescue the "only if": on a 75 by 3000 surface with ratio
`0x1.9999999999999p-6` the truncated per-mille aspects differ, the third
branch is taken, and the double product `3000 * ratio` rounds to 75, so the
full surface is stored all the same. -/
theorem full_surface_without_rounded_agreement :
    ((resizeGL x86 wide GLState.init 885 498).1.w = 885 ∧
      (resizeGL x86 wide GLState.init 885 498).1.h = 498 ∧
      specRoundTest wide.m_display_ratio 885 498 = false) ∧
    ((resizeGL x86 narrow GLState.init 75 3000).1.w = 75 ∧
      (resizeGL x86 narrow GLState.init 75 3000).1.h = 3000 ∧
      specialCase x86 narrow.m_display_ratio 75 3000 = false) := by
  constructor
  · obtain ⟨-, -, hw, hh⟩ := resizeGL_fields x86 wide GLState.init 885 498
    rw [wide_ratio, specialCase_885_498] at hw hh
    exact ⟨hw, hh, specRoundTest_885_498⟩
  · obtain ⟨-, -, hw, hh⟩ := resizeGL_fields x86 narrow GLState.init 75 3000
    have hv : binary64 (((3000 : Int) : ℚ) * (7205759403792793 / 288230376151711744)) = 75 := by
      rw [Int.cast_ofNat, binary64_3000_r2]
    have h75 : toInt x86 (some (75 : ℚ)) = 75 :=
      toInt_eq_of x86 (by norm_num) (by unfold INT_MAX; norm_num) (by norm_num) (by norm_num)
    rw [narrow_ratio, specialCase_75_3000, hv] at hw hh
    rw [h75] at hw
    refine ⟨?_, ?_, specialCase_75_3000 x86⟩
    · rw [hw]; norm_num
    · rw [hh]; norm_num

theorem toInt_zero (t : Target) : toInt t (some 0) = 0 := by
  have := toInt_eq_of t (q := 0) (k := 0) le_rfl (by unfold INT_MAX; norm_num) (by norm_num)
    (by norm_num)
  exact this

/-- With ratio 0 neither fitting branch divides: the second is never taken, and the
third stores width 0. -/
theorem resizeGL_zero_ratio (t : Target) (s : Widget) (gl : GLState) (W H : Int)
    (hW : 0 < W) (hWm : W ≤ INT_MAX)
    (hr : s.m_display_ratio = 0) (hs : specialCase t s.m_display_ratio W H = false) :
    (resizeGL t s gl W H).1.x = Int.tdiv W 2 ∧ (resizeGL t s gl W H).1.y = 0 ∧
    (resizeGL t s gl W H).1.w = 0 ∧ (resizeGL t s gl W H).1.h = H := by
  obtain ⟨hx, hy, hw, hh⟩ := resizeGL_fields t s gl W H
  have hWq : (0 : ℚ) < W := by exact_mod_cast hW
  have hng : ¬ binary64 ((H : ℚ) * s.m_display_ratio) > W := by
    rw [hr, mul_zero, binary64_zero]; exact not_lt.2 hWq.le
  rw [hs] at hw hh
  simp only [Bool.false_eq_true, if_false, if_neg hng] at hw hh
  rw [hr, mul_zero, binary64_zero, toInt_zero] at hw
  rw [hx, hy, hw, hh, sub_zero, sub_self, wrap32_of_fits (by unfold INT_MIN; omega) hWm]
  exact ⟨rfl, rfl, rfl, rfl⟩

/-- When the special-case test holds the full surface is stored. -/
theorem resizeGL_of_test (t : Target) (s : Widget) (gl : GLState) (W H : Int)
    (hs : specialCase t s.m_display_ratio W H = true) :
    (resizeGL t s gl W H).1.x = 0 ∧ (resizeGL t s gl W H).1.y = 0 ∧
    (resizeGL t s gl W H).1.w = W ∧ (resizeGL t s gl W H).1.h = H := by
  obtain ⟨hx, hy, hw, hh⟩ := resizeGL_fields t s gl W H
  rw [hs] at hw hh
  simp only [if_true] at hw hh
  rw [hx, hy, hw, hh, sub_self, sub_self]
  exact ⟨rfl, rfl, rfl, rfl⟩

/-- With height 0 the stored height is 0; the stored width is the surface
width when the special-case test holds and 0 when it fails. -/
theorem resizeGL_zero_height (t : Target) (s : Widget) (gl : GLState) (W : Int)
    (hW : 0 < W) (hWm : W ≤ INT_MAX) :
    (resizeGL t s gl W 0).1.h = 0 ∧ (resizeGL t s gl W 0).1.y = 0 ∧
    (specialCase t s.m_display_ratio W 0 = true →
      (resizeGL t s gl W 0).1.w = W ∧ (resizeGL t s gl W 0).1.x = 0) ∧
    (specialCase t s.m_display_ratio W 0 = false →
      (resizeGL t s gl W 0).1.w = 0 ∧ (resizeGL t s gl W 0).1.x = Int.tdiv W 2) := by
  obtain ⟨hx, hy, hw, hh⟩ := resizeGL_fields t s gl W 0
  have hWq : (0 : ℚ) < W := by exact_mod_cast hW
  have hng : ¬ binary64 (((0 : Int) : ℚ) * s.m_display_ratio) > W := by
    rw [Int.cast_zero, zero_mul, binary64_zero]; exact not_lt.2 hWq.le
  simp only [if_neg hng, ite_self] at hh
  rw [if_neg hng, Int.cast_zero, zero_mul, binary64_zero, toInt_zero] at hw
  refine ⟨hh, ?_, ?_, ?_⟩
  · rw [hy, hh]; rfl
  · intro hs
    obtain ⟨a, -, c, -⟩ := resizeGL_of_test t s gl W 0 hs
    exact ⟨c, a⟩
  · intro hs
    rw [hs] at hw
    simp only [Bool.false_eq_true, if_false] at hw
    refine ⟨hw, ?_⟩
    rw [hx, hw, sub_zero, wrap32_of_fits (by unfold INT_MIN; omega) hWm]

/-- Counterexample to C5: with ratio 0 an 800 by 600 surface gets the
rectangle `(400, 0, 0, 600)`, not the full surface; with height 0 the aspect
computation divides by zero and an 800 by 0 surface gets width 0. -/
theorem degenerate_resize_not_full_surface :
    ((resizeGL x86 flat GLState.init 800 600).1.x = 400 ∧
      (resizeGL x86 flat GLState.init 800 600).1.y = 0 ∧
      (resizeGL x86 flat GLState.init 800 600).1.w = 0 ∧
      (resizeGL x86 flat GLState.init 800 600).1.h = 600) ∧
    (ddiv 800 0 = none ∧
      (resizeGL x86 (construct 0 0 0 0) GLState.init 800 0).1.w = 0 ∧
      (resizeGL x86 (construct 0 0 0 0) GLState.init 800 0).1.h = 0) := by
  have b : toInt x86 (some (binary64 (binary64 (4 / 3) * 1000))) = 1333 := by
    rw [binary64_four_thirds, binary64_four_thirds_permille]
    exact toInt_eq_of x86 (by norm_num) (by unfold INT_MAX; norm_num) (by norm_num) (by norm_num)
  constructor
  · have hs : specialCase x86 flat.m_display_ratio 800 600 = false := by
      have e : ((800 : Int) : ℚ) / ((600 : Int) : ℚ) = 4 / 3 := by norm_num
      have n : ¬ ((600 : Int) : ℚ) = 0 := by norm_num
      simp only [specialCase, ddiv, if_neg n, e, dmul, b, flat_ratio, zero_mul, binary64_zero,
        toInt_zero]
      rfl
    exact resizeGL_zero_ratio x86 flat GLState.init 800 600 (by norm_num)
      (by unfold INT_MAX; norm_num) flat_ratio hs
  · have hd : ddiv 800 0 = none := by simp [ddiv]
    have hs : specialCase x86 (construct 0 0 0 0).m_display_ratio 800 0 = false := by
      have n : ((0 : Int) : ℚ) = 0 := by norm_num
      show (toInt x86 (dmul (ddiv ((800 : Int) : ℚ) ((0 : Int) : ℚ)) 1000) ==
        toInt x86 (dmul (some (binary64 (4 / 3))) 1000)) = false
      simp only [ddiv, if_pos n, dmul, b]
      rfl
    obtain ⟨-, -, hw, hh⟩ := resizeGL_fields x86 (construct 0 0 0 0) GLState.init 800 0
    obtain ⟨h0, -, -, -⟩ := resizeGL_zero_height x86 (construct 0 0 0 0) GLState.init 800
      (by norm_num) (by unfold INT_MAX; norm_num)
    refine ⟨hd, ?_, h0⟩
    have hng : ¬ binary64 (((0 : Int) : ℚ) * (construct 0 0 0 0).m_display_ratio) > ((800 : Int) : ℚ) := by
      rw [Int.cast_zero, zero_mul, binary64_zero]; norm_num
    rw [hs] at hw
    simp only [Bool.false_eq_true, if_false, if_neg hng] at hw
    rw [Int.cast_zero, zero_mul, binary64_zero, toInt_zero] at hw
    exact hw

/-- C5, amended: `resizeGL` has no guard.  With ratio 0 and a positive surface
the aspect quotient is finite and the branch that divides by the ratio is not
taken; the stored rectangle is the full surface when the special-case test
holds and `(width / 2, 0, 0, height)` when it fails.  With height 0 the aspect
quotient is a division by zero; the stored height and `y` are 0, and the stored
width is the surface width, with `x` 0, when the special-case test holds, and
0, with `x` half the surface width, when it fails. -/
theorem resizeGL_degenerate (t : Target) (s : Widget) (gl : GLState) (width : Int)
    (hW : 0 < width) (hWm : width ≤ INT_MAX) :
    (∀ height : Int, 0 < height → height ≤ INT_MAX → s.m_display_ratio = 0 →
      ddiv width height ≠ none ∧
      ¬ binary64 (height * s.m_display_ratio) > width ∧
      (specialCase t s.m_display_ratio width height = true →
        (resizeGL t s gl width height).1.x = 0 ∧
        (resizeGL t s gl width height).1.y = 0 ∧
        (resizeGL t s gl width height).1.w = width ∧
        (resizeGL t s gl width height).1.h = height) ∧
      (specialCase t s.m_display_ratio width height = false →
        (resizeGL t s gl width height).1.x = Int.tdiv width 2 ∧
        (resizeGL t s gl width height).1.y = 0 ∧
        (resizeGL t s gl width height).1.w = 0 ∧
        (resizeGL t s gl width height).1.h = height)) ∧
    (ddiv width 0 = none ∧
      (resizeGL t s gl width 0).1.h = 0 ∧ (resizeGL t s gl width 0).1.y = 0 ∧
      (specialCase t s.m_display_ratio width 0 = true →
        (resizeGL t s gl width 0).1.w = width ∧ (resizeGL t s gl width 0).1.x = 0) ∧
      (specialCase t s.m_display_ratio width 0 = false →
        (resizeGL t s gl width 0).1.w = 0 ∧
        (resizeGL t s gl width 0).1.x = Int.tdiv width 2)) := by
  have hWq : (0 : ℚ) < width := by exact_mod_cast hW
  constructor
  · intro height hH _ hr
    have hHq : ((height : Int) : ℚ) ≠ 0 := by exact_mod_cast (ne_of_gt hH)
    refine ⟨?_, ?_, fun hs => resizeGL_of_test t s gl width height hs,
      fun hs => resizeGL_zero_ratio t s gl width height hW hWm hr hs⟩
    · unfold ddiv; rw [if_neg hHq]; exact Option.some_ne_none _
    · rw [hr, mul_zero, binary64_zero]; exact not_lt.2 hWq.le
  · refine ⟨by simp [ddiv], resizeGL_zero_height t s gl width hW hWm⟩

/-- The special-case test fails on an 800 by 0 surface with the default ratio
on the x86 target: the non-finite quotient converts to `INT_MIN`, the ratio to
1333. -/
theorem specialCase_800_0 : specialCase x86 (construct 0 0 0 0).m_display_ratio 800 0 = false := by
  have b : toInt x86 (some (binary64 (binary64 (4 / 3) * 1000))) = 1333 := by
    rw [binary64_four_thirds, binary64_four_thirds_permille]
    exact toInt_eq_of x86 (by norm_num) (by unfold INT_MAX; norm_num) (by norm_num) (by norm_num)
  have n : ((0 : Int) : ℚ) = 0 := by norm_num
  show (toInt x86 (dmul (ddiv ((800 : Int) : ℚ) ((0 : Int) : ℚ)) 1000) ==
    toInt x86 (dmul (some (binary64 (4 / 3))) 1000)) = false
  simp only [ddiv, if_pos n, dmul, b]
  rfl

/-- Witness of the amended C5 at an 800 pixel wide surface: with height 0 and
the default ratio the rectangle stored is `(400, 0, 0, 0)`, and with height 600
the quotient is finite. -/
theorem resizeGL_degenerate_800 :
    ddiv 800 600 ≠ none ∧ ddiv 800 0 = none ∧
    (resizeGL x86 (construct 0 0 0 0) GLState.init 800 0).1.x = 400 ∧
    (resizeGL x86 (construct 0 0 0 0) GLState.init 800 0).1.y = 0 ∧
    (resizeGL x86 (construct 0 0 0 0) GLState.init 800 0).1.w = 0 ∧
    (resizeGL x86 (construct 0 0 0 0) GLState.init 800 0).1.h = 0 := by
  obtain ⟨-, h2, h3, h4, -, h6⟩ :=
    resizeGL_degenerate x86 (construct 0 0 0 0) GLState.init 800 (by norm_num)
      (by unfold INT_MAX; norm_num)
  obtain ⟨h7, h8⟩ := h6 specialCase_800_0
  have hq : ddiv 800 600 ≠ none := by
    have n : ¬ (600 : ℚ) = 0 := by norm_num
    unfold ddiv; rw [if_neg n]; exact Option.some_ne_none _
  refine ⟨hq, by simpa using h2, ?_, h4, h7, h3⟩
  rw [h8]; rfl

/-! ## The hand-off between the threads -/

theorem run_append (t : Target) (sys : System) (es : List Event) (e : Event) :
    run t sys (es ++ [e]) = step t (run t sys es) e := by
  simp [run, List.foldl_append]

theorem showFrame_flag (t : Target) (s : Widget) (gl : GLState) (image : QImage) :
    (showFrame t s gl image).1.isShowingFrame = false := rfl

theorem resizeGL_flag (t : Target) (s : Widget) (gl : GLState) (W H : Int) :
    (resizeGL t s gl W H).1.isShowingFrame = s.isShowingFrame := rfl

theorem handOff_opened (s : Widget) (gl : GLState) (dar : ℚ) : HandOff (opened s gl dar) := by
  refine ⟨Or.inl ⟨rfl, ?_⟩, rfl⟩
  simp [opened, open_]

theorem handOff_step (t : Target) (sys : System) (e : Event) (h : HandOff sys) :
    HandOff (step t sys e) := by
  obtain ⟨hq, hh⟩ := h
  cases e with
  | frameShow frame =>
    rcases hq with ⟨hp, hf⟩ | ⟨e, hp, hf⟩
    · refine ⟨Or.inr ⟨⟨frame.image, (frame.position % 4294967296).toNat⟩, ?_, ?_⟩, ?_⟩
      · simp [step, on_frame_show, hf, hp]
      · simp [step, on_frame_show, hf]
      · simp [step, on_frame_show, hf, hp, hh]
    · refine ⟨Or.inr ⟨e, ?_, ?_⟩, ?_⟩
      · simp [step, on_frame_show, hf, hp]
      · simp [step, on_frame_show, hf]
      · simp [step, on_frame_show, hf, hh]
  | dispatch =>
    rcases hq with ⟨hp, hf⟩ | ⟨e, hp, hf⟩
    · refine ⟨Or.inl ⟨?_, ?_⟩, ?_⟩
      · simp [step, hp]
      · simp [step, hp, hf]
      · simp [step, hp, hh]
    · refine ⟨Or.inl ⟨?_, ?_⟩, ?_⟩
      · simp [step, hp]
      · simp [step, hp, showFrame_flag]
      · simp [step, hp, hh]
  | resize width height => exact ⟨hq, hh⟩
  | paint => exact ⟨hq, hh⟩

theorem handOff_run (t : Target) (sys : System) (es : List Event) (h : HandOff sys) :
    HandOff (run t sys es) := by
  induction es using List.reverseRecOn with
  | nil => exact h
  | append_singleton es e ih => rw [run_append]; exact handOff_step t _ e ih

/-- C1: in every state reachable from the one `open` leaves, by frame
notifications, deliveries to `showFrame`, resizes and repaints, at most one
emission is posted; when one is posted `isShowingFrame` is true; a notification
arriving then posts nothing; and the images `showFrame` has been called with,
followed by the one still posted, are exactly the emissions in order, so that
no accepted frame reaches `showFrame` twice. -/
theorem at_most_one_in_flight (t : Target) (s : Widget) (gl : GLState) (dar : ℚ)
    (events : List Event) :
    (run t (opened s gl dar) events).pending.length ≤ 1 ∧
    ((run t (opened s gl dar) events).pending.length = 1 →
      (run t (opened s gl dar) events).widget.isShowingFrame = true) ∧
    (∀ frame : Frame, (run t (opened s gl dar) events).pending ≠ [] →
      (step t (run t (opened s gl dar) events) (Event.frameShow frame)).pending =
        (run t (opened s gl dar) events).pending ∧
      (step t (run t (opened s gl dar) events) (Event.frameShow frame)).emitted =
        (run t (opened s gl dar) events).emitted) ∧
    (run t (opened s gl dar) events).emitted.map (fun e => e.image) =
      (run t (opened s gl dar) events).shown ++
        (run t (opened s gl dar) events).pending.map (fun e => e.image) := by
  obtain ⟨hq, hh⟩ := handOff_run t (opened s gl dar) events (handOff_opened s gl dar)
  rcases hq with ⟨hp, hf⟩ | ⟨e, hp, hf⟩
  · refine ⟨by simp [hp], ?_, ?_, hh⟩
    · intro h; simp [hp] at h
    · intro frame h; exact absurd hp h
  · refine ⟨by simp [hp], fun _ => hf, ?_, hh⟩
    intro frame _
    simp [step, on_frame_show, hf]

/-- C2: `on_frame_show` forwards the frame, emitting `frameReceived` once and
raising `isShowingFrame`, exactly when `isShowingFrame` was false on entry, and
then touches no other data member; when it was true the call emits nothing and
leaves the widget as it was. -/
theorem on_frame_show_gate (s : Widget) (frame : Frame) :
    (((on_frame_show s frame).2.length = 1 ∧ (on_frame_show s frame).1.isShowingFrame = true ∧
        (on_frame_show s frame).2 = [⟨frame.image, (frame.position % 4294967296).toNat⟩]) ↔
      s.isShowingFrame = false) ∧
    (s.isShowingFrame = false → (on_frame_show s frame).1 = { s with isShowingFrame := true }) ∧
    (s.isShowingFrame = true →
      (on_frame_show s frame).2 = [] ∧ (on_frame_show s frame).1 = s) := by
  cases h : s.isShowingFrame <;> simp [on_frame_show, h]

/-! ## Textures -/

theorem renderAll_append (t : Target) (p : Widget × GLState) (cs : List RenderCall)
    (c : RenderCall) : renderAll t p (cs ++ [c]) = render t (renderAll t p cs) c := by
  simp [renderAll, List.foldl_append]

theorem lastShown_append (cs : List RenderCall) (c : RenderCall) :
    lastShown (cs ++ [c]) =
      match c with
      | RenderCall.showFrame image => some image
      | _ => lastShown cs := by
  simp [lastShown, List.foldl_append]

theorem texReplay_append (cs ds : List GLCall) :
    texReplay (cs ++ ds) = ds.foldl texScan (texReplay cs) := by
  simp [texReplay, List.foldl_append]

theorem textureCalls_append (cs ds : List GLCall) :
    textureCalls (cs ++ ds) = textureCalls cs ++ textureCalls ds := by
  simp [textureCalls]

/-- The calls `paintGL` adds. -/
theorem paintGL_calls (t : Target) (s : Widget) (gl : GLState) :
    ∃ cs, (paintGL t s gl).calls = gl.calls ++ cs ∧ textureCalls cs = [] ∧
      (∀ acc, cs.foldl texScan acc = acc) ∧ (paintGL t s gl).textures = gl.textures ∧
      (paintGL t s gl).generated = gl.generated := by
  unfold paintGL
  by_cases h : s.m_texture ≠ 0
  · cases hm : t.q_ws_mac
    · refine ⟨[GLCall.glClear true true] ++ quadCalls s, ?_, ?_, ?_, ?_, ?_⟩ <;>
        simp [h, hm, GLState.issue, quadCalls, textureCalls, texScan]
    · refine ⟨[GLCall.glClear true true, GLCall.glClear true false] ++ quadCalls s,
        ?_, ?_, ?_, ?_, ?_⟩ <;>
        simp [h, hm, GLState.issue, quadCalls, textureCalls, texScan]
  · refine ⟨[GLCall.glClear true true], ?_, ?_, ?_, ?_, ?_⟩ <;>
      simp [h, GLState.issue, textureCalls, texScan]

/-- The calls `resizeGL` adds. -/
theorem resizeGL_calls (t : Target) (s : Widget) (gl : GLState) (W H : Int) :
    ∃ cs, (resizeGL t s gl W H).2.calls = gl.calls ++ cs ∧ textureCalls cs = [] ∧
      (∀ acc, cs.foldl texScan acc = acc) ∧ (resizeGL t s gl W H).2.textures = gl.textures ∧
      (resizeGL t s gl W H).2.generated = gl.generated := by
  refine ⟨[GLCall.glViewport 0 0 W H, GLCall.glMatrixMode true, GLCall.glLoadIdentity,
    GLCall.gluOrtho2D 0 W H 0, GLCall.glMatrixMode false, GLCall.glClear true false],
    ?_, ?_, ?_, ?_, ?_⟩ <;>
    simp [resizeGL, GLState.issue, textureCalls, texScan]

/-- What `showFrame` does to the data members. -/
theorem showFrame_widget (t : Target) (s : Widget) (gl : GLState) (image : QImage) :
    (showFrame t s gl image).1 =
      { s with
        isShowingFrame := false
        m_image_width := image.width
        m_image_height := image.height
        m_texture := gl.generated + 1 } := by
  unfold showFrame
  by_cases h : s.m_texture ≠ 0 <;>
    simp [h, GLState.genTexture, GLState.issue, GLState.deleteTexture]

/-- The calls `showFrame` adds when a texture exists: the old texture is
deleted, then a new one is generated and filled. -/
theorem showFrame_calls_of_texture (t : Target) (s : Widget) (gl : GLState) (image : QImage)
    (h : s.m_texture ≠ 0) :
    ∃ cs, (showFrame t s gl image).2.calls =
        gl.calls ++ [GLCall.glDeleteTextures s.m_texture, GLCall.glPixelStorei image.width,
          GLCall.glGenTextures (gl.generated + 1), GLCall.glBindTexture (gl.generated + 1),
          GLCall.glTexParameter true, GLCall.glTexParameter false,
          GLCall.glTexImage2D image.width image.height] ++ cs ∧
      textureCalls cs = [] ∧ (∀ acc, cs.foldl texScan acc = acc) := by
  obtain ⟨cs, h1, h2, h3, -, -⟩ := paintGL_calls t
    { s with isShowingFrame := true, m_image_width := image.width,
             m_image_height := image.height, m_texture := gl.generated + 1 }
    ((((((gl.deleteTexture s.m_texture).issue (GLCall.glPixelStorei image.width)).genTexture.1.bindTexture
      (gl.generated + 1)).issue (GLCall.glTexParameter true)).issue
        (GLCall.glTexParameter false)).texImage2D image.width image.height)
  refine ⟨cs, ?_, h2, h3⟩
  unfold showFrame
  simp only [h, if_true, ne_eq, not_false_eq_true]
  simp only [GLState.genTexture, GLState.issue, GLState.deleteTexture, GLState.bindTexture,
    GLState.texImage2D] at h1 ⊢
  rw [h1]
  simp

/-- The calls `showFrame` adds when no texture exists. -/
theorem showFrame_calls_of_none (t : Target) (s : Widget) (gl : GLState) (image : QImage)
    (h : s.m_texture = 0) :
    ∃ cs, (showFrame t s gl image).2.calls =
        gl.calls ++ [GLCall.glPixelStorei image.width,
          GLCall.glGenTextures (gl.generated + 1), GLCall.glBindTexture (gl.generated + 1),
          GLCall.glTexParameter true, GLCall.glTexParameter false,
          GLCall.glTexImage2D image.width image.height] ++ cs ∧
      textureCalls cs = [] ∧ (∀ acc, cs.foldl texScan acc = acc) := by
  obtain ⟨cs, h1, h2, h3, -, -⟩ := paintGL_calls t
    { s with isShowingFrame := true, m_image_width := image.width,
             m_image_height := image.height, m_texture := gl.generated + 1 }
    (((((gl.issue (GLCall.glPixelStorei image.width)).genTexture.1.bindTexture
      (gl.generated + 1)).issue (GLCall.glTexParameter true)).issue
        (GLCall.glTexParameter false)).texImage2D image.width image.height)
  refine ⟨cs, ?_, h2, h3⟩
  unfold showFrame
  simp only [h, ne_eq, not_true_eq_false, if_false]
  simp only [GLState.genTexture, GLState.issue, GLState.bindTexture,
    GLState.texImage2D] at h1 ⊢
  rw [h1]
  simp

theorem paintGL_textures (t : Target) (s : Widget) (gl : GLState) :
    (paintGL t s gl).textures = gl.textures := by
  obtain ⟨_, -, -, -, h, -⟩ := paintGL_calls t s gl
  exact h

/-- The texture table after `showFrame` when the table held at most the
own texture of the widget. -/
theorem showFrame_textures (t : Target) (s : Widget) (gl : GLState) (image : QImage)
    (h : (s.m_texture = 0 ∧ gl.textures = []) ∨
      (s.m_texture ≠ 0 ∧ ∃ sz, gl.textures = [⟨s.m_texture, sz⟩])) :
    (showFrame t s gl image).2.textures =
      [⟨gl.generated + 1, some (image.width, image.height)⟩] := by
  unfold showFrame
  simp only [paintGL_textures]
  rcases h with ⟨h0, ht⟩ | ⟨h0, sz, ht⟩
  · simp [h0, ht, GLState.genTexture, GLState.issue, GLState.bindTexture, GLState.texImage2D]
  · simp [h0, ht, GLState.genTexture, GLState.issue, GLState.bindTexture,
      GLState.deleteTexture, GLState.texImage2D]

theorem oneTexture_showFrame (t : Target) (p : Widget × GLState) (image : QImage)
    (h : OneTexture p) : OneTexture (showFrame t p.1 p.2 image) := by
  obtain ⟨hq, hr⟩ := h
  have htex := showFrame_textures t p.1 p.2 image (by
    rcases hq with ⟨a, b⟩ | ⟨a, b⟩
    · exact Or.inl ⟨a, b⟩
    · exact Or.inr ⟨a, _, b⟩)
  have hw := showFrame_widget t p.1 p.2 image
  refine ⟨Or.inr ⟨?_, ?_⟩, ?_⟩
  · rw [hw]; simp
  · rw [htex, hw]
  · rw [htex]
    rcases hq with ⟨a, b⟩ | ⟨a, b⟩
    · obtain ⟨cs, hc, -, hs⟩ := showFrame_calls_of_none t p.1 p.2 image a
      rw [hc, texReplay_append, texReplay_append, hr, hs, b]
      simp [texScan]
    · obtain ⟨cs, hc, -, hs⟩ := showFrame_calls_of_texture t p.1 p.2 image a
      rw [hc, texReplay_append, texReplay_append, hr, hs, b]
      simp [texScan]

theorem oneTexture_render (t : Target) (p : Widget × GLState) (c : RenderCall)
    (h : OneTexture p) : OneTexture (render t p c) := by
  cases c with
  | showFrame image => exact oneTexture_showFrame t p image h
  | paintGL =>
    obtain ⟨cs, h1, -, h3, h4, -⟩ := paintGL_calls t p.1 p.2
    obtain ⟨hq, hr⟩ := h
    refine ⟨?_, ?_⟩
    · show (p.1.m_texture = 0 ∧ (paintGL t p.1 p.2).textures = []) ∨ (p.1.m_texture ≠ 0 ∧
        (paintGL t p.1 p.2).textures = [⟨p.1.m_texture, some (p.1.m_image_width, p.1.m_image_height)⟩])
      rw [h4]; exact hq
    · show texReplay (paintGL t p.1 p.2).calls =
        ((paintGL t p.1 p.2).textures.map (fun x => x.name), true)
      rw [h1, h4, texReplay_append, h3, hr]
  | resizeGL width height =>
    obtain ⟨cs, h1, -, h3, h4, -⟩ := resizeGL_calls t p.1 p.2 width height
    obtain ⟨hq, hr⟩ := h
    refine ⟨?_, ?_⟩
    · show ((resizeGL t p.1 p.2 width height).1.m_texture = 0 ∧
          (resizeGL t p.1 p.2 width height).2.textures = []) ∨
        ((resizeGL t p.1 p.2 width height).1.m_texture ≠ 0 ∧
          (resizeGL t p.1 p.2 width height).2.textures =
            [⟨(resizeGL t p.1 p.2 width height).1.m_texture,
              some ((resizeGL t p.1 p.2 width height).1.m_image_width,
                (resizeGL t p.1 p.2 width height).1.m_image_height)⟩])
      rw [h4]; exact hq
    · show texReplay (resizeGL t p.1 p.2 width height).2.calls =
        ((resizeGL t p.1 p.2 width height).2.textures.map (fun x => x.name), true)
      rw [h1, h4, texReplay_append, h3, hr]

theorem sizeOfLast_render (t : Target) (p : Widget × GLState) (cs : List RenderCall)
    (c : RenderCall) (h : SizeOfLast p cs) : SizeOfLast (render t p c) (cs ++ [c]) := by
  unfold SizeOfLast at h ⊢
  rw [lastShown_append]
  cases c with
  | showFrame image =>
    show (showFrame t p.1 p.2 image).1.m_texture ≠ 0 ∧
      (showFrame t p.1 p.2 image).1.m_image_width = image.width ∧
      (showFrame t p.1 p.2 image).1.m_image_height = image.height
    rw [showFrame_widget]; simp
  | paintGL => exact h
  | resizeGL width height => exact h

/-- C8: from the constructed widget and a context without textures, after
any sequence of `showFrame`, `paintGL` and `resizeGL` calls either `m_texture`
is 0 and no texture exists, or `m_texture` is the only texture that exists and
the image it holds has the size `(m_image_width, m_image_height)`, which is the
size of the image of the last `showFrame`; and in the call log every texture
was generated while no other one was live. -/
theorem one_texture_at_a_time (t : Target) (x y w h : Int) (calls : List RenderCall) :
    (((renderAll t (construct x y w h, GLState.init) calls).1.m_texture = 0 ∧
        (renderAll t (construct x y w h, GLState.init) calls).2.textures = [] ∧
        lastShown calls = none) ∨
      ((renderAll t (construct x y w h, GLState.init) calls).1.m_texture ≠ 0 ∧
        (renderAll t (construct x y w h, GLState.init) calls).2.textures =
          [⟨(renderAll t (construct x y w h, GLState.init) calls).1.m_texture,
            some ((renderAll t (construct x y w h, GLState.init) calls).1.m_image_width,
              (renderAll t (construct x y w h, GLState.init) calls).1.m_image_height)⟩] ∧
        ∃ image, lastShown calls = some image ∧
          (renderAll t (construct x y w h, GLState.init) calls).1.m_image_width = image.width ∧
          (renderAll t (construct x y w h, GLState.init) calls).1.m_image_height
            = image.height)) ∧
    texReplay (renderAll t (construct x y w h, GLState.init) calls).2.calls =
      ((renderAll t (construct x y w h, GLState.init) calls).2.textures.map (fun x => x.name),
        true) := by
  have key : OneTexture (renderAll t (construct x y w h, GLState.init) calls) ∧
      SizeOfLast (renderAll t (construct x y w h, GLState.init) calls) calls := by
    induction calls using List.reverseRecOn with
    | nil => exact ⟨⟨Or.inl ⟨rfl, rfl⟩, rfl⟩, ⟨rfl, rfl, rfl⟩⟩
    | append_singleton cs c ih =>
      rw [renderAll_append]
      exact ⟨oneTexture_render t _ c ih.1, sizeOfLast_render t _ cs c ih.2⟩
  obtain ⟨⟨hq, hr⟩, hs⟩ := key
  refine ⟨?_, hr⟩
  unfold SizeOfLast at hs
  rcases hq with ⟨a, b⟩ | ⟨a, b⟩
  · left
    refine ⟨a, b, ?_⟩
    cases hl : lastShown calls with
    | none => rfl
    | some image => rw [hl] at hs; exact absurd a hs.1
  · right
    refine ⟨a, b, ?_⟩
    cases hl : lastShown calls with
    | none => rw [hl] at hs; exact absurd hs.1 a
    | some image => rw [hl] at hs; exact ⟨image, rfl, hs.2.1, hs.2.2⟩

/-- C6, amended: when a texture exists, `showFrame` deletes it and generates a
new one, exactly one `glDeleteTextures` followed by one `glGenTextures`,
whatever the size of the image; `m_texture` becomes the new name. -/
theorem showFrame_recreates (t : Target) (s : Widget) (gl : GLState) (image : QImage)
    (h : s.m_texture ≠ 0) :
    textureCalls (showFrame t s gl image).2.calls =
      textureCalls gl.calls ++
        [GLCall.glDeleteTextures s.m_texture, GLCall.glGenTextures (gl.generated + 1)] ∧
    (showFrame t s gl image).1.m_texture = gl.generated + 1 := by
  obtain ⟨cs, hc, ht, -⟩ := showFrame_calls_of_texture t s gl image h
  refine ⟨?_, by rw [showFrame_widget]⟩
  rw [hc, textureCalls_append, textureCalls_append, ht]
  simp [textureCalls]

/-- Witness of the amended C6: a 640 by 480 upload followed by an 800 by 600
upload gives one delete-then-generate cycle after the first generation. -/
theorem showFrame_recreates_vga_svga :
    textureCalls (showFrame x86 (showFrame x86 (construct 0 0 0 0) GLState.init vga).1
        (showFrame x86 (construct 0 0 0 0) GLState.init vga).2 svga).2.calls =
      [GLCall.glGenTextures 1, GLCall.glDeleteTextures 1, GLCall.glGenTextures 2] := by
  have h := showFrame_recreates x86 (showFrame x86 (construct 0 0 0 0) GLState.init vga).1
    (showFrame x86 (construct 0 0 0 0) GLState.init vga).2 svga (by
      rw [showFrame_widget]; simp [GLState.init])
  rw [h.1]
  rfl

/-- Counterexample to C6: a second upload of the same 640 by 480 size finds
the texture of the first with the same recorded size, and still deletes it and
generates another; the handle changes from 1 to 2. -/
theorem same_size_upload_recreates :
    (showFrame x86 (construct 0 0 0 0) GLState.init vga).1.m_texture = 1 ∧
    (showFrame x86 (construct 0 0 0 0) GLState.init vga).1.m_image_width = vga.width ∧
    (showFrame x86 (construct 0 0 0 0) GLState.init vga).1.m_image_height = vga.height ∧
    textureCalls (showFrame x86 (construct 0 0 0 0) GLState.init vga).2.calls =
      [GLCall.glGenTextures 1] ∧
    textureCalls (showFrame x86 (showFrame x86 (construct 0 0 0 0) GLState.init vga).1
        (showFrame x86 (construct 0 0 0 0) GLState.init vga).2 vga).2.calls =
      [GLCall.glGenTextures 1, GLCall.glDeleteTextures 1, GLCall.glGenTextures 2] ∧
    (showFrame x86 (showFrame x86 (construct 0 0 0 0) GLState.init vga).1
        (showFrame x86 (construct 0 0 0 0) GLState.init vga).2 vga).1.m_texture = 2 :=
  ⟨rfl, rfl, rfl, rfl, rfl, rfl⟩

/-- C7, amended: from a state with `isShowingFrame` false and nothing posted,
a frame delivered through `on_frame_show` and the hand-off ends with
`isShowingFrame` false whatever the size of its image, zero included; the
image is passed to `showFrame`, which generates a texture, stores its
non-zero name in `m_texture` and issues `glTexImage2D` with the size of the image. -/
theorem frame_shown_whatever_its_size (t : Target) (sys : System) (frame : Frame)
    (hf : sys.widget.isShowingFrame = false) (hp : sys.pending = []) :
    (run t sys [Event.frameShow frame, Event.dispatch]).widget.isShowingFrame = false ∧
    (run t sys [Event.frameShow frame, Event.dispatch]).pending = [] ∧
    (run t sys [Event.frameShow frame, Event.dispatch]).shown = sys.shown ++ [frame.image] ∧
    (run t sys [Event.frameShow frame, Event.dispatch]).widget.m_texture =
      sys.gl.generated + 1 ∧
    GLCall.glGenTextures (sys.gl.generated + 1) ∈
      (run t sys [Event.frameShow frame, Event.dispatch]).gl.calls ∧
    GLCall.glTexImage2D frame.image.width frame.image.height ∈
      (run t sys [Event.frameShow frame, Event.dispatch]).gl.calls := by
  have hrun : run t sys [Event.frameShow frame, Event.dispatch] =
      { sys with
        widget := (showFrame t { sys.widget with isShowingFrame := true } sys.gl frame.image).1
        gl := (showFrame t { sys.widget with isShowingFrame := true } sys.gl frame.image).2
        pending := []
        emitted := sys.emitted ++ [⟨frame.image, (frame.position % 4294967296).toNat⟩]
        shown := sys.shown ++ [frame.image] } := by
    simp [run, step, on_frame_show, hf, hp]
  rw [hrun]
  refine ⟨rfl, rfl, rfl, by simp only [showFrame_widget], ?_, ?_⟩
  · by_cases h0 : sys.widget.m_texture = 0
    · obtain ⟨cs, hc, -, -⟩ := showFrame_calls_of_none t
        { sys.widget with isShowingFrame := true } sys.gl frame.image h0
      simp only [hc]; simp
    · obtain ⟨cs, hc, -, -⟩ := showFrame_calls_of_texture t
        { sys.widget with isShowingFrame := true } sys.gl frame.image h0
      simp only [hc]; simp
  · by_cases h0 : sys.widget.m_texture = 0
    · obtain ⟨cs, hc, -, -⟩ := showFrame_calls_of_none t
        { sys.widget with isShowingFrame := true } sys.gl frame.image h0
      simp only [hc]; simp
    · obtain ⟨cs, hc, -, -⟩ := showFrame_calls_of_texture t
        { sys.widget with isShowingFrame := true } sys.gl frame.image h0
      simp only [hc]; simp

/-- Witness of the amended C7 with the frame whose image is 0 pixels wide. -/
theorem empty_frame_shown :
    (run x86 (opened (construct 0 0 0 0) GLState.init (binary64 (4 / 3)))
      [Event.frameShow emptyFrame, Event.dispatch]).widget.isShowingFrame = false ∧
    (run x86 (opened (construct 0 0 0 0) GLState.init (binary64 (4 / 3)))
      [Event.frameShow emptyFrame, Event.dispatch]).shown = [emptyFrame.image] :=
  ⟨(frame_shown_whatever_its_size x86 (opened (construct 0 0 0 0) GLState.init
      (binary64 (4 / 3))) emptyFrame rfl rfl).1,
   (frame_shown_whatever_its_size x86 (opened (construct 0 0 0 0) GLState.init
      (binary64 (4 / 3))) emptyFrame rfl rfl).2.2.1⟩

/-- Counterexample to C7: from the opened widget with no texture, the frame
whose image is 0 pixels wide is passed to `showFrame`, a texture is generated
and `m_texture` becomes 1, and `glTexImage2D` is issued with width 0. -/
theorem zero_width_frame_creates_texture :
    (opened (construct 0 0 0 0) GLState.init (binary64 (4 / 3))).widget.isShowingFrame = false ∧
    (opened (construct 0 0 0 0) GLState.init (binary64 (4 / 3))).widget.m_texture = 0 ∧
    emptyFrame.image.width = 0 ∧
    (run x86 (opened (construct 0 0 0 0) GLState.init (binary64 (4 / 3)))
      [Event.frameShow emptyFrame, Event.dispatch]).shown = [emptyFrame.image] ∧
    (run x86 (opened (construct 0 0 0 0) GLState.init (binary64 (4 / 3)))
      [Event.frameShow emptyFrame, Event.dispatch]).widget.m_texture = 1 ∧
    (run x86 (opened (construct 0 0 0 0) GLState.init (binary64 (4 / 3)))
      [Event.frameShow emptyFrame, Event.dispatch]).gl.textures = [⟨1, some (0, 480)⟩] ∧
    textureCalls (run x86 (opened (construct 0 0 0 0) GLState.init (binary64 (4 / 3)))
      [Event.frameShow emptyFrame, Event.dispatch]).gl.calls = [GLCall.glGenTextures 1] ∧
    GLCall.glTexImage2D 0 480 ∈
      (run x86 (opened (construct 0 0 0 0) GLState.init (binary64 (4 / 3)))
        [Event.frameShow emptyFrame, Event.dispatch]).gl.calls :=
  ⟨rfl, rfl, rfl, rfl, rfl, rfl, rfl, by decide⟩

end GLWidget
